import Mathlib

/-!
Shallow embedding of the serial-tcp-proxy core (Go) and proofs about it.

The embedding covers: the client registry (`internal/client/client.go`),
the upstream connector (`internal/upstream`), the proxy engine
(`internal/proxy/proxy.go`), the packet logger (`internal/logger/logger.go`)
and the configuration validation (`internal/config`).

Byte buffers are modelled as `List Nat` (each entry taken mod 256 where the
byte width matters), Go maps by their key lists, atomic counters by `Nat`,
and network outcomes (whether a given peer write succeeds, whether a dial
succeeds, ...) by explicit environment parameters.
-/

namespace SerialTcpProxy

/-- Error kinds surfaced by the proxy core (spec section 7): capacity
rejection from the registry, `net.ErrClosed` from a write with no live
upstream handle, `ErrInvalidTarget` from packet injection, and a wrapper
for other I/O errors. -/
inductive PErr
  | capacityExceeded (max : Nat)
  | disconnected
  | invalidTarget
  | io (msg : String)
  deriving DecidableEq, Repr

/-- State of `client.Manager` (client.go lines 20-27): the
`map[string]*Client` is modelled by its list of keys, the atomic
`counter` and `webClients` by naturals.  `closed` records the ids whose
connection handle has been closed (`Conn.Close()`). -/
structure Manager where
  clients : List String
  maxClients : Nat
  counter : Nat
  webClients : Nat
  closed : List String
  deriving DecidableEq, Repr

/-- `client.NewManager` (client.go lines 29-35). -/
def NewManager (maxClients : Nat) : Manager :=
  { clients := [], maxClients := maxClients, counter := 0, webClients := 0,
    closed := [] }

/-- `Manager.Add` (client.go lines 37-59): under the lock, reject with the
max-clients error when `len(clients) + webClients >= maxClients` (the caller
keeps the unchanged state), otherwise allocate id `client#<counter+1>` and
insert the record. -/
def Manager.Add (m : Manager) : Except PErr (Manager × String) :=
  if m.clients.length + m.webClients ≥ m.maxClients then
    .error (.capacityExceeded m.maxClients)
  else
    let cid := "client#" ++ toString (m.counter + 1)
    .ok ({ m with clients := m.clients ++ [cid], counter := m.counter + 1 }, cid)

/-- `Manager.Remove` (client.go lines 61-71): if the id is present, close its
handle and delete the record; otherwise a no-op. -/
def Manager.Remove (m : Manager) (cid : String) : Manager :=
  if cid ∈ m.clients then
    { m with clients := m.clients.erase cid, closed := m.closed ++ [cid] }
  else m

/-- `Manager.AddWebClient` (client.go lines 105-118): same capacity check as
`Add`, then increment the web counter. -/
def Manager.AddWebClient (m : Manager) : Except PErr Manager :=
  if m.clients.length + m.webClients ≥ m.maxClients then
    .error (.capacityExceeded m.maxClients)
  else .ok { m with webClients := m.webClients + 1 }

/-- `Manager.RemoveWebClient` (client.go lines 121-133): the compare-and-swap
loop decrements the counter by one unless it is already zero. -/
def Manager.RemoveWebClient (m : Manager) : Manager :=
  if m.webClients = 0 then m else { m with webClients := m.webClients - 1 }

/-- `Manager.Count` (client.go lines 90-94). -/
def Manager.Count (m : Manager) : Nat := m.clients.length

/-- `Manager.TotalCount` (client.go lines 97-101). -/
def Manager.TotalCount (m : Manager) : Nat := m.clients.length + m.webClients

/-- `Manager.CloseAll` (client.go lines 168-177): close every proxy client
handle and empty the map. -/
def Manager.CloseAll (m : Manager) : Manager :=
  { m with clients := [], closed := m.closed ++ m.clients }

/-- One attempted peer write performed by the core: the target id, the bytes
handed to the connection `Write`, and the write deadline in milliseconds. -/
structure WriteAttempt where
  cid : String
  data : List Nat
  deadlineMs : Nat
  deriving DecidableEq, Repr

/-- Loop body of `Manager.Broadcast` (client.go lines 150-160): write `data`
to one snapshotted client under a 100 ms deadline, recording the attempt and,
when the environment says the write failed, the id in the failure list. -/
def broadcastStep (data : List Nat) (writeOk : String → Bool)
    (acc : List WriteAttempt × List String) (cid : String) :
    List WriteAttempt × List String :=
  if writeOk cid then (acc.1 ++ [⟨cid, data, 100⟩], acc.2)
  else (acc.1 ++ [⟨cid, data, 100⟩], acc.2 ++ [cid])

/-- `Manager.Broadcast` (client.go lines 140-166): snapshot the registered
clients under the read lock, write to each of them (collecting failures),
and only after the iteration remove the failed peers.  The outcome of each
network write is supplied by the environment `writeOk`.  Returns the new
registry state and the list of write attempts made. -/
def Manager.Broadcast (m : Manager) (data : List Nat) (writeOk : String → Bool) :
    Manager × List WriteAttempt :=
  let snapshot := m.clients
  let res := snapshot.foldl (broadcastStep data writeOk) ([], [])
  (res.2.foldl (fun acc cid => acc.Remove cid) m, res.1)

/-- One registry operation as invoked by the engine and the web adapter.
The rejection paths of `Add` and `AddWebClient` leave the state unchanged
(the Go functions return an error without mutating anything). -/
inductive MStep : Manager → Manager → Prop
  | add (m m2 : Manager) (cid : String) (h : m.Add = .ok (m2, cid)) : MStep m m2
  | addRejected (m : Manager) (e : PErr) (h : m.Add = .error e) : MStep m m
  | remove (m : Manager) (cid : String) : MStep m (m.Remove cid)
  | addWeb (m m2 : Manager) (h : m.AddWebClient = .ok m2) : MStep m m2
  | addWebRejected (m : Manager) (e : PErr) (h : m.AddWebClient = .error e) :
      MStep m m
  | removeWeb (m : Manager) : MStep m m.RemoveWebClient
  | broadcast (m : Manager) (data : List Nat) (ok : String → Bool) :
      MStep m (m.Broadcast data ok).1
  | closeAll (m : Manager) : MStep m m.CloseAll

/-- Registry states reachable from `NewManager max` by any interleaving of
registry operations (each Go method holds the mutex, so the operations are
serializable). -/
inductive MReachable (max : Nat) : Manager → Prop
  | refl : MReachable max (NewManager max)
  | step {m m2 : Manager} : MReachable max m → MStep m m2 → MReachable max m2

lemma Remove_clients_length_le (m : Manager) (cid : String) :
    (m.Remove cid).clients.length ≤ m.clients.length := by
  unfold Manager.Remove
  split
  · exact (List.erase_sublist cid m.clients).length_le
  · exact le_rfl

lemma Remove_webClients (m : Manager) (cid : String) :
    (m.Remove cid).webClients = m.webClients := by
  unfold Manager.Remove; split <;> rfl

lemma Remove_maxClients (m : Manager) (cid : String) :
    (m.Remove cid).maxClients = m.maxClients := by
  unfold Manager.Remove; split <;> rfl

lemma foldl_remove_le (ids : List String) (m : Manager) :
    (ids.foldl (fun acc cid => acc.Remove cid) m).clients.length ≤ m.clients.length ∧
    (ids.foldl (fun acc cid => acc.Remove cid) m).webClients = m.webClients ∧
    (ids.foldl (fun acc cid => acc.Remove cid) m).maxClients = m.maxClients := by
  induction ids generalizing m with
  | nil => exact ⟨le_rfl, rfl, rfl⟩
  | cons a t ih =>
    simp only [List.foldl_cons]
    refine ⟨le_trans (ih (m.Remove a)).1 (Remove_clients_length_le m a), ?_, ?_⟩
    · rw [(ih (m.Remove a)).2.1, Remove_webClients]
    · rw [(ih (m.Remove a)).2.2, Remove_maxClients]

lemma Broadcast_le (m : Manager) (data : List Nat) (ok : String → Bool) :
    ((m.Broadcast data ok).1).clients.length ≤ m.clients.length ∧
    ((m.Broadcast data ok).1).webClients = m.webClients ∧
    ((m.Broadcast data ok).1).maxClients = m.maxClients := by
  unfold Manager.Broadcast
  exact foldl_remove_le _ m

/-- The capacity invariant holds at `NewManager` and is preserved by every
registry operation. -/
lemma MStep_preserves {m m2 : Manager}
    (h : MStep m m2)
    (inv : m.clients.length + m.webClients ≤ m.maxClients) :
    m2.clients.length + m2.webClients ≤ m2.maxClients := by
  cases h with
  | add m2 cid h =>
    unfold Manager.Add at h
    split at h
    · exact absurd h (by simp)
    · rename_i hlt
      injection h with h
      injection h with h1 h2
      subst h1
      simp only [List.length_append, List.length_cons, List.length_nil]
      omega
  | addRejected e h => exact inv
  | remove cid =>
    have h1 := Remove_clients_length_le m cid
    have h2 := Remove_webClients m cid
    have h3 := Remove_maxClients m cid
    omega
  | addWeb m2 h =>
    unfold Manager.AddWebClient at h
    split at h
    · exact absurd h (by simp)
    · rename_i hlt
      injection h with h
      subst h
      simp only
      omega
  | addWebRejected e h => exact inv
  | removeWeb =>
    unfold Manager.RemoveWebClient
    split
    · exact inv
    · simp only
      omega
  | broadcast data ok =>
    have h := Broadcast_le m data ok
    omega
  | closeAll =>
    unfold Manager.CloseAll
    simp only [List.length_nil]
    omega

lemma MReachable_inv {max : Nat} {m : Manager} (h : MReachable max m) :
    m.clients.length + m.webClients ≤ m.maxClients := by
  induction h with
  | refl => simp [NewManager]
  | step hr hs ih => exact MStep_preserves hs ih

/-- C1: for a registry created with capacity `max_clients`, in every
reachable state the number of registered proxy clients plus the
web-subscriber counter is at most `max_clients`; `Add` and `AddWebClient`
reject with the capacity error — leaving the registry unchanged, since the
error return carries no new state — whenever the combined count is already
at least `max_clients`; and no other registry operation increases either
count. -/
theorem capacity_invariant (max : Nat) (m : Manager) (h : MReachable max m) :
    m.Count + m.webClients ≤ m.maxClients ∧
    (m.Count + m.webClients ≥ m.maxClients →
      m.Add = .error (.capacityExceeded m.maxClients) ∧
      m.AddWebClient = .error (.capacityExceeded m.maxClients)) ∧
    (∀ cid, (m.Remove cid).TotalCount ≤ m.TotalCount) ∧
    m.RemoveWebClient.TotalCount ≤ m.TotalCount ∧
    (∀ data ok, ((m.Broadcast data ok).1).TotalCount ≤ m.TotalCount) ∧
    m.CloseAll.TotalCount ≤ m.TotalCount := by
  refine ⟨MReachable_inv h, ?_, ?_, ?_, ?_, ?_⟩
  · intro hge
    have hge2 : m.clients.length + m.webClients ≥ m.maxClients := hge
    constructor
    · unfold Manager.Add
      rw [if_pos hge2]
    · unfold Manager.AddWebClient
      rw [if_pos hge2]
  · intro cid
    have h1 := Remove_clients_length_le m cid
    have h2 := Remove_webClients m cid
    simp only [Manager.TotalCount]
    omega
  · simp only [Manager.TotalCount]
    unfold Manager.RemoveWebClient
    split
    · omega
    · simp only
      omega
  · intro data ok
    have h1 := Broadcast_le m data ok
    simp only [Manager.TotalCount]
    omega
  · simp only [Manager.TotalCount, Manager.CloseAll, List.length_nil]
    omega

/-- C1 witness: the invariant instantiated at the freshly created registry
of capacity 10. -/
theorem capacity_invariant_witness :
    (NewManager 10).Count + (NewManager 10).webClients ≤ (NewManager 10).maxClients :=
  (capacity_invariant 10 (NewManager 10) MReachable.refl).1

lemma Remove_clients (m : Manager) (cid : String) :
    (m.Remove cid).clients = m.clients.erase cid := by
  unfold Manager.Remove
  split
  · rfl
  · rename_i h
    rw [List.erase_of_not_mem h]

lemma Remove_closed_sub (m : Manager) (cid : String) :
    m.closed ⊆ (m.Remove cid).closed := by
  unfold Manager.Remove
  split
  · exact List.subset_append_left _ _
  · exact List.Subset.refl _

lemma broadcast_foldl_fst (l : List String) (data : List Nat) (ok : String → Bool)
    (acc : List WriteAttempt × List String) :
    (l.foldl (broadcastStep data ok) acc).1 =
      acc.1 ++ l.map (fun cid => ⟨cid, data, 100⟩) := by
  induction l generalizing acc with
  | nil => simp
  | cons a t ih =>
    simp only [List.foldl_cons, List.map_cons]
    rw [ih]
    unfold broadcastStep
    split <;> simp

lemma broadcast_foldl_snd (l : List String) (data : List Nat) (ok : String → Bool)
    (acc : List WriteAttempt × List String) :
    (l.foldl (broadcastStep data ok) acc).2 =
      acc.2 ++ l.filter (fun cid => !(ok cid)) := by
  induction l generalizing acc with
  | nil => simp
  | cons a t ih =>
    simp only [List.foldl_cons, List.filter_cons]
    rw [ih]
    unfold broadcastStep
    by_cases h : ok a = true <;> simp [h]

lemma foldl_remove_clients_eq (ids : List String) (m : Manager) :
    (ids.foldl (fun acc cid => acc.Remove cid) m).clients =
      ids.foldl (fun l cid => l.erase cid) m.clients := by
  induction ids generalizing m with
  | nil => rfl
  | cons a t ih =>
    simp only [List.foldl_cons]
    rw [ih (m.Remove a), Remove_clients]

lemma foldl_erase_eq_filter (ids l : List String) (h : l.Nodup) :
    ids.foldl (fun acc cid => acc.erase cid) l =
      l.filter (fun a => !(ids.contains a)) := by
  induction ids generalizing l with
  | nil => simp
  | cons a t ih =>
    simp only [List.foldl_cons]
    rw [ih (l.erase a) (h.erase a), List.Nodup.erase_eq_filter h a,
      List.filter_filter]
    apply List.filter_congr
    intro x hx
    simp only [List.contains_cons, Bool.not_or, bne]
    cases hxa : x == a <;> cases hxt : t.contains x <;> simp [hxa, hxt]

lemma foldl_remove_webClients (ids : List String) (m : Manager) :
    (ids.foldl (fun acc cid => acc.Remove cid) m).webClients = m.webClients :=
  (foldl_remove_le ids m).2.1

lemma foldl_remove_closed_sub (ids : List String) (m : Manager) :
    m.closed ⊆ (ids.foldl (fun acc cid => acc.Remove cid) m).closed := by
  induction ids generalizing m with
  | nil => exact List.Subset.refl _
  | cons a t ih =>
    simp only [List.foldl_cons]
    exact (Remove_closed_sub m a).trans (ih (m.Remove a))

lemma foldl_remove_closed_mem (ids : List String) (m : Manager)
    (hnd : ids.Nodup) (hndc : m.clients.Nodup)
    (hsub : ∀ x ∈ ids, x ∈ m.clients) :
    ∀ x ∈ ids, x ∈ (ids.foldl (fun acc cid => acc.Remove cid) m).closed := by
  induction ids generalizing m with
  | nil => intro x hx; exact absurd hx (List.not_mem_nil x)
  | cons a t ih =>
    intro x hx
    simp only [List.foldl_cons]
    have hmem : a ∈ m.clients := hsub a (List.mem_cons_self a t)
    have hclosed : a ∈ (m.Remove a).closed := by
      unfold Manager.Remove
      rw [if_pos hmem]
      simp
    rcases List.mem_cons.mp hx with hxa | hxt
    · subst hxa
      exact foldl_remove_closed_sub t (m.Remove x) hclosed
    · have hat : a ∉ t := (List.nodup_cons.mp hnd).1
      refine ih (m.Remove a) (List.nodup_cons.mp hnd).2 ?_ ?_ x hxt
      · rw [Remove_clients]
        exact hndc.erase a
      · intro y hy
        rw [Remove_clients]
        have hya : y ≠ a := by
          intro hcontra
          subst hcontra
          exact hat hy
        exact (List.mem_erase_of_ne hya).mpr (hsub y (List.mem_cons_of_mem a hy))

/-- C2: `Broadcast data` attempts a write of the whole buffer to every proxy
client registered at the start of the call, each under a 100 ms deadline;
removal (and closing) of the failed peers happens only after the iteration,
so every snapshotted peer gets its attempt; the surviving registry is
exactly the peers whose write succeeded, every failed peer ends up closed,
and the web-subscriber counter is untouched — web subscribers receive
nothing, as the attempt list targets exactly the proxy clients. -/
theorem broadcast_spec (m : Manager) (data : List Nat) (ok : String → Bool)
    (hnd : m.clients.Nodup) :
    (m.Broadcast data ok).2 = m.clients.map (fun cid => ⟨cid, data, 100⟩) ∧
    ((m.Broadcast data ok).1).clients = m.clients.filter ok ∧
    (∀ cid ∈ m.clients, ok cid = false → cid ∈ ((m.Broadcast data ok).1).closed) ∧
    ((m.Broadcast data ok).1).webClients = m.webClients ∧
    ∀ a ∈ (m.Broadcast data ok).2, a.cid ∈ m.clients := by
  have hfst : (m.Broadcast data ok).2 = m.clients.map (fun cid => ⟨cid, data, 100⟩) := by
    unfold Manager.Broadcast
    simp only
    rw [broadcast_foldl_fst]
    simp
  have hfailed : (m.clients.foldl (broadcastStep data ok) ([], [])).2 =
      m.clients.filter (fun cid => !(ok cid)) := by
    rw [broadcast_foldl_snd]
    simp
  refine ⟨hfst, ?_, ?_, ?_, ?_⟩
  · unfold Manager.Broadcast
    simp only
    rw [hfailed, foldl_remove_clients_eq, foldl_erase_eq_filter _ _ hnd]
    apply List.filter_congr
    intro x hx
    by_cases hok : ok x = true
    · simp [hok, List.mem_filter]
    · have hmem : x ∈ m.clients.filter (fun cid => !(ok cid)) := by
        simp [List.mem_filter, hx, hok]
      have hcont : (m.clients.filter (fun cid => !(ok cid))).contains x = true := by
        simpa using hmem
      rw [hcont]
      simp [hok]
  · intro cid hcid hfail
    unfold Manager.Broadcast
    simp only
    rw [hfailed]
    refine foldl_remove_closed_mem _ m (hnd.filter _) hnd ?_ cid ?_
    · intro y hy
      exact (List.mem_filter.mp hy).1
    · simp [List.mem_filter, hcid, hfail]
  · unfold Manager.Broadcast
    simp only
    exact foldl_remove_webClients _ m
  · rw [hfst]
    intro a ha
    rcases List.mem_map.mp ha with ⟨cid, hcid, hEq⟩
    rw [← hEq]
    exact hcid

/-- A concrete registry with two proxy clients and one web subscriber. -/
def mSample : Manager :=
  { clients := ["client#1", "client#2"], maxClients := 10, counter := 2,
    webClients := 1, closed := [] }

/-- C2 witness: broadcasting over `mSample` where the write to `client#2`
fails. -/
theorem broadcast_spec_witness :
    ((mSample.Broadcast [247, 14] (fun cid => cid == "client#1")).1).clients =
      mSample.clients.filter (fun cid => cid == "client#1") :=
  (broadcast_spec mSample [247, 14] (fun cid => cid == "client#1")
    (by decide)).2.1

/-- `upstream.ConnectionState` (upstream source lines 20-27). -/
inductive UpState
  | disconnected
  | connecting
  | connected
  | stopped
  deriving DecidableEq, Repr, Fintype

/-- The connector fields read by `Connection.Write`: the state enum and
whether the connection handle `conn` is non-null. -/
structure WSt where
  st : UpState
  conn : Bool
  deriving DecidableEq, Repr

/-- `Connection.Write` (upstream source lines 198-215): under the write
mutex, snapshot the handle; with no live handle fail with `net.ErrClosed`
(the `Disconnected` error kind); otherwise write the whole buffer under a
5-second deadline.  `netErr` is the environment outcome of the underlying
`conn.Write`; the connector state and handle are never modified here.
Returns the (unchanged) connector, the write attempts made, and the error
result. -/
def Connection.Write (u : WSt) (data : List Nat) (netErr : Option String) :
    WSt × List WriteAttempt × Option PErr :=
  if u.conn = false then (u, [], some .disconnected)
  else (u, [⟨"upstream", data, 5000⟩], netErr.map .io)

/-- C4: `Write` fails with the `Disconnected` error exactly when there is no
live handle; otherwise it attempts the entire buffer under a 5-second
(5000 ms) deadline and returns exactly the underlying write error, if any;
in every case the connector state and handle are left unchanged. -/
theorem upstream_write_spec (u : WSt) (data : List Nat) (netErr : Option String) :
    ((Connection.Write u data netErr).2.2 = some PErr.disconnected ↔ u.conn = false) ∧
    (Connection.Write u data netErr).1 = u ∧
    (u.conn = true →
      (Connection.Write u data netErr).2.1 = [⟨"upstream", data, 5000⟩] ∧
      (Connection.Write u data netErr).2.2 = netErr.map PErr.io) := by
  cases hc : u.conn with
  | false => simp [Connection.Write, hc]
  | true =>
    cases netErr with
    | none => simp [Connection.Write, hc]
    | some e => simp [Connection.Write, hc]

/-- C4 witness: a live connected handle with a failing underlying write. -/
theorem upstream_write_spec_witness :
    (Connection.Write ⟨UpState.connected, true⟩ [1, 2] (some "broken pipe")).2.1 =
      [⟨"upstream", [1, 2], 5000⟩] :=
  ((upstream_write_spec ⟨UpState.connected, true⟩ [1, 2] (some "broken pipe")).2.2
    rfl).1

/-- `backoff := time.Second` (upstream source line 108), in milliseconds. -/
def reconnectInitial : Nat := 1000

/-- `maxBackoff := 30 * time.Second` (upstream source line 109), in
milliseconds. -/
def reconnectMax : Nat := 30000

/-- The backoff update after a failed dial:
`backoff = min(backoff*2, maxBackoff)` (upstream source line 134). -/
def nextBackoff (b : Nat) : Nat := min (b * 2) reconnectMax

/-- The backoff value in force before the (n+1)-st consecutive failed dial:
it starts at `reconnectInitial` and is updated by `nextBackoff` after each
failure. -/
def backoffSeq : Nat → Nat
  | 0 => reconnectInitial
  | n + 1 => nextBackoff (backoffSeq n)

/-- The backoff value after the connection loop observes a dial outcome: a
success resets it to `reconnectInitial` (upstream source line 140), a
failure applies `nextBackoff`. -/
def backoffAfter (b : Nat) (dialOk : Bool) : Nat :=
  if dialOk then reconnectInitial else nextBackoff b

lemma backoffSeq_le_max (n : Nat) : backoffSeq n ≤ reconnectMax := by
  cases n with
  | zero =>
    unfold backoffSeq reconnectInitial reconnectMax
    omega
  | succ k =>
    unfold backoffSeq nextBackoff
    exact min_le_right _ _

/-- C6: the backoff sequence over consecutive dial failures starts at
`reconnect_initial` (1 s), each next value is the minimum of twice the
current value and `reconnect_max` (30 s), hence the series is non-decreasing
and bounded above by `reconnect_max`; every successful connection resets the
backoff to `reconnect_initial`. -/
theorem backoff_spec :
    backoffSeq 0 = reconnectInitial ∧
    (∀ n, backoffSeq (n + 1) = min (backoffSeq n * 2) reconnectMax) ∧
    (∀ n, backoffSeq n ≤ backoffSeq (n + 1)) ∧
    (∀ n, backoffSeq n ≤ reconnectMax) ∧
    (∀ b, backoffAfter b true = reconnectInitial) := by
  refine ⟨rfl, fun n => rfl, ?_, backoffSeq_le_max, fun b => rfl⟩
  intro n
  have h1 := backoffSeq_le_max n
  show backoffSeq n ≤ nextBackoff (backoffSeq n)
  unfold nextBackoff
  omega

/-- `config.Config` (config source lines 11-20); ports and counts are Go
ints, so modelled as `Int`. -/
structure Config where
  upstreamHost : String
  upstreamPort : Int
  listenPort : Int
  maxClients : Int
  logPackets : Bool
  logFile : String
  webPort : Int
  deriving DecidableEq, Repr

/-- The validation stage of `config.Load` (config source lines 77-94),
applied to the fully resolved configuration (defaults, then options file,
then environment overrides).  Returns the fatal error message, or `none`
when the configuration is accepted. -/
def validateConfig (c : Config) : Option String :=
  if c.upstreamHost = "" then some "UPSTREAM_HOST is required"
  else if c.upstreamPort ≤ 0 ∨ c.upstreamPort > 65535 then
    some "invalid UPSTREAM_PORT"
  else if c.listenPort ≤ 0 ∨ c.listenPort > 65535 then
    some "invalid LISTEN_PORT"
  else if c.maxClients ≤ 0 ∨ c.maxClients > 100 then
    some "MAX_CLIENTS must be between 1 and 100"
  else none

/-- A fully resolved configuration whose `web_port` is 0, outside the
spec table's 1..65535 range, with every other field valid. -/
def cWebZero : Config :=
  { upstreamHost := "h", upstreamPort := 8899, listenPort := 18899,
    maxClients := 10, logPackets := false, logFile := "/data/packets.log",
    webPort := 0 }

/-- C8 counterexample: `web_port = 0` lies outside 1..65535, yet the
validation of `Load` accepts the configuration — the code never checks
`web_port`, so the claim that every constraint of the configuration table
is enforced is false. -/
theorem config_webport_not_validated :
    (cWebZero.webPort < 1 ∨ cWebZero.webPort > 65535) ∧
    validateConfig cWebZero = none := by
  constructor
  · left
    decide
  · decide

/-- C8 (amended): the validation of `Load` rejects exactly an empty
`upstream_host`, an `upstream_port` or `listen_port` outside 1..65535, or a
`max_clients` outside 1..100; `web_port` is not validated, so any other
fully resolved configuration is accepted. -/
theorem config_validate_spec (c : Config) :
    validateConfig c = none ↔
      (c.upstreamHost ≠ "" ∧
       1 ≤ c.upstreamPort ∧ c.upstreamPort ≤ 65535 ∧
       1 ≤ c.listenPort ∧ c.listenPort ≤ 65535 ∧
       1 ≤ c.maxClients ∧ c.maxClients ≤ 100) := by
  unfold validateConfig
  split_ifs with h1 h2 h3 h4
  · simp only [h1]
    constructor
    · intro h
      exact absurd h (by simp)
    · intro h
      exact absurd rfl h.1
  · constructor
    · intro h
      exact absurd h (by simp)
    · intro h
      omega
  · constructor
    · intro h
      exact absurd h (by simp)
    · intro h
      omega
  · constructor
    · intro h
      exact absurd h (by simp)
    · intro h
      omega
  · constructor
    · intro _
      refine ⟨h1, ?_, ?_, ?_, ?_, ?_, ?_⟩ <;> omega
    · intro _
      rfl

/-- A packet record handed to `Logger.LogPacket`: direction tag, payload
bytes, and source id. -/
structure PacketLog where
  dir : String
  data : List Nat
  source : String
  deriving DecidableEq, Repr

/-- Engine state relevant to packet injection (`proxy.Server`): the upstream
state enum, the client registry, the packet log records emitted, and the
buffers written through the upstream connector. -/
structure PServer where
  upstreamSt : UpState
  clients : Manager
  logs : List PacketLog
  upstreamWrites : List (List Nat)
  deriving Repr

/-- `Server.IsUpstreamConnected` via `Connection.IsConnected` (upstream
source lines 82-84): the state enum equals `Connected`. -/
def PServer.IsUpstreamConnected (s : PServer) : Bool :=
  s.upstreamSt = UpState.connected

/-- `Server.InjectPacket` (proxy.go lines 224-239): for target "upstream",
require a live upstream (else `net.ErrClosed`, the `Disconnected` kind),
log a `->UP` record with source `INJECT`, and write through the connector
(`upWriteErr` is the environment outcome of that write); for target
"downstream", log a `UP->` record with source `INJECT` and broadcast to the
proxy clients (`writeOk` gives the per-peer outcomes), returning no error;
for any other target, `ErrInvalidTarget`. -/
def PServer.InjectPacket (s : PServer) (target : String) (data : List Nat)
    (upWriteErr : Option String) (writeOk : String → Bool) :
    PServer × Option PErr :=
  if target = "upstream" then
    if s.IsUpstreamConnected = false then (s, some .disconnected)
    else
      ({ s with logs := s.logs ++ [⟨"->UP", data, "INJECT"⟩],
                upstreamWrites := s.upstreamWrites ++ [data] },
       upWriteErr.map .io)
  else if target = "downstream" then
    ({ s with logs := s.logs ++ [⟨"UP->", data, "INJECT"⟩],
              clients := (s.clients.Broadcast data writeOk).1 },
     none)
  else (s, some .invalidTarget)

/-- C3: `InjectPacket` on target "upstream" fails with the `Disconnected`
error when the upstream is not Connected, and otherwise emits a `->UP`
packet record with source `INJECT` and writes the buffer through the
connector, returning the write's outcome; on target "downstream" it emits a
`UP->` record with source `INJECT`, broadcasts to all currently registered
proxy clients and returns no error; on every other target it returns
`InvalidTarget` with the state unchanged. -/
theorem inject_packet_spec (s : PServer) (target : String) (data : List Nat)
    (e : Option String) (ok : String → Bool) :
    (target = "upstream" → s.IsUpstreamConnected = false →
      s.InjectPacket target data e ok = (s, some PErr.disconnected)) ∧
    (target = "upstream" → s.IsUpstreamConnected = true →
      (s.InjectPacket target data e ok).1.logs =
        s.logs ++ [⟨"->UP", data, "INJECT"⟩] ∧
      (s.InjectPacket target data e ok).1.upstreamWrites =
        s.upstreamWrites ++ [data] ∧
      (s.InjectPacket target data e ok).1.clients = s.clients ∧
      (s.InjectPacket target data e ok).2 = e.map PErr.io) ∧
    (target = "downstream" →
      (s.InjectPacket target data e ok).1.logs =
        s.logs ++ [⟨"UP->", data, "INJECT"⟩] ∧
      (s.InjectPacket target data e ok).1.clients =
        (s.clients.Broadcast data ok).1 ∧
      (s.InjectPacket target data e ok).2 = none) ∧
    (target ≠ "upstream" → target ≠ "downstream" →
      s.InjectPacket target data e ok = (s, some PErr.invalidTarget)) := by
  refine ⟨?_, ?_, ?_, ?_⟩
  · intro ht hc
    simp [PServer.InjectPacket, ht, hc]
  · intro ht hc
    simp [PServer.InjectPacket, ht, hc]
  · intro ht
    have hne : target ≠ "upstream" := by
      subst ht
      decide
    simp [PServer.InjectPacket, ht, hne]
  · intro h1 h2
    simp [PServer.InjectPacket, h1, h2]

/-- An engine state with a connected upstream and the sample registry. -/
def sSample : PServer :=
  { upstreamSt := .connected, clients := mSample, logs := [],
    upstreamWrites := [] }

/-- C3 witness: an upstream injection on `sSample` logs the `->UP` INJECT
record. -/
theorem inject_packet_spec_witness :
    (sSample.InjectPacket "upstream" [72, 105] none (fun _ => true)).1.logs =
      sSample.logs ++ [⟨"->UP", [72, 105], "INJECT"⟩] :=
  ((inject_packet_spec sSample "upstream" [72, 105] none (fun _ => true)).2.1
    rfl rfl).1

/-- State of `logger.Logger` as produced by `logger.New`: whether packet
logging is enabled, whether the buffered file sink and its periodic flush
ticker were installed, and the warnings printed during construction. -/
structure LoggerSt where
  logPackets : Bool
  fileSink : Bool
  flushTicker : Bool
  warnings : List String
  deriving DecidableEq, Repr

/-- `logger.New` (logger.go lines 33-55): always constructs a logger writing
to stdout; when packet logging is enabled and a log file is configured it
tries to open the file (`openOk` is the environment outcome of
`os.OpenFile`) — on failure it prints a warning and continues with the file
sink disabled; the returned error is always nil. -/
def loggerNew (logPackets : Bool) (logFile : String) (openOk : Bool) :
    LoggerSt × Option String :=
  let base : LoggerSt :=
    { logPackets := logPackets, fileSink := false, flushTicker := false,
      warnings := [] }
  if logPackets = true ∧ logFile ≠ "" then
    if openOk then ({ base with fileSink := true, flushTicker := true }, none)
    else
      ({ base with
          warnings := ["Failed to open log file, packet logging to file disabled"] },
       none)
  else (base, none)

/-- C10: logger construction is total — for every input (and either outcome
of the file open) `New` returns a logger and a nil error; when packet
logging is enabled, a file is configured and the open fails, the logger
carries a warning and its file sink stays disabled, while the packet-logging
flag (stdout and callback behavior) is unaffected. -/
theorem logger_new_total (logPackets : Bool) (logFile : String) (openOk : Bool) :
    (loggerNew logPackets logFile openOk).2 = none ∧
    (loggerNew logPackets logFile openOk).1.logPackets = logPackets ∧
    (logPackets = true → logFile ≠ "" → openOk = false →
      (loggerNew logPackets logFile openOk).1.fileSink = false ∧
      (loggerNew logPackets logFile openOk).1.warnings ≠ []) := by
  refine ⟨?_, ?_, ?_⟩
  · unfold loggerNew
    split
    · split <;> rfl
    · rfl
  · unfold loggerNew
    split
    · split <;> rfl
    · rfl
  · intro hl hf ho
    subst hl
    subst ho
    simp [loggerNew, hf]

/-- C10 witness: packet logging enabled, file configured, open fails: no
error is returned and the file sink is disabled. -/
theorem logger_new_total_witness :
    (loggerNew true "/data/packets.log" false).2 = none ∧
    (loggerNew true "/data/packets.log" false).1.fileSink = false :=
  ⟨(logger_new_total true "/data/packets.log" false).1,
   ((logger_new_total true "/data/packets.log" false).2.2 rfl (by decide) rfl).1⟩

/-- One digit of the lowercase hex table of Go `encoding/hex`
("0123456789abcdef"): 48 is the code of the zero digit, 87 + 10 the code of
the letter a. -/
def hexDigit (n : Nat) : Char :=
  if n < 10 then Char.ofNat (48 + n) else Char.ofNat (87 + n)

/-- The two lowercase hex characters `hex.EncodeToString` emits for one
byte (bytes are uint8, hence mod 256). -/
def byteHexChars (b : Nat) : List Char :=
  [hexDigit (b % 256 / 16), hexDigit (b % 256 % 16)]

/-- `hex.EncodeToString(data)` (logger.go line 123), as its character
list. -/
def encodeToString (data : List Nat) : List Char :=
  data.flatMap byteHexChars

/-- The hex spacing loop of `Logger.LogPacket` (logger.go lines 126-134):
walk the hex string two characters at a time; before every chunk except the
first append one space; append a chunk only when two characters remain.
`atStart` records `i == 0`. -/
def formatHexGo : List Char → Bool → String
  | [], _ => ""
  | [_], atStart => if atStart then "" else " "
  | c1 :: c2 :: rest, atStart =>
      (if atStart then "" else " ") ++ String.mk [c1, c2] ++ formatHexGo rest false

/-- The line rendered by `Logger.LogPacket` when a packet line is emitted
(logger.go lines 122-143), as a function of the already formatted
timestamp. -/
def logPacketLine (ts dir : String) (data : List Nat) (source : String) :
    String :=
  let formattedHex := formatHexGo (encodeToString data) true
  if source ≠ "" then
    ts ++ " [PKT] [" ++ dir ++ "] " ++ formattedHex ++ " (" ++
      toString data.length ++ " bytes) from " ++ source ++ "\n"
  else
    ts ++ " [PKT] [" ++ dir ++ "] " ++ formattedHex ++ " (" ++
      toString data.length ++ " bytes)\n"

/-- One byte rendered as its lowercase two-digit hex pair (the spec's
rendering unit). -/
def byteHexStr (b : Nat) : String := String.mk (byteHexChars b)

/-- The spec's hex field: the bytes' pairs separated by single spaces, with
no trailing space. -/
def specHex : List Nat → String
  | [] => ""
  | [b] => byteHexStr b
  | b :: rest => byteHexStr b ++ " " ++ specHex rest

/-- The spec's packet line:
`<ts> [PKT] [<dir>] <hex> (<n> bytes)[ from <src>]` plus one newline, the
`from` part present exactly when the source is non-empty. -/
def specPacketLine (ts dir : String) (data : List Nat) (source : String) :
    String :=
  ts ++ " [PKT] [" ++ dir ++ "] " ++ specHex data ++ " (" ++
    toString data.length ++ " bytes)" ++
    (if source = "" then "" else " from " ++ source) ++ "\n"

lemma encodeToString_cons (b : Nat) (rest : List Nat) :
    encodeToString (b :: rest) =
      hexDigit (b % 256 / 16) :: hexDigit (b % 256 % 16) :: encodeToString rest := by
  simp [encodeToString, byteHexChars]

lemma formatHexGo_false (data : List Nat) :
    formatHexGo (encodeToString data) false =
      if data.isEmpty then "" else " " ++ specHex data := by
  induction data with
  | nil => rfl
  | cons b rest ih =>
    rw [encodeToString_cons]
    show " " ++ String.mk [hexDigit (b % 256 / 16), hexDigit (b % 256 % 16)] ++
        formatHexGo (encodeToString rest) false = _
    rw [ih]
    cases rest with
    | nil =>
      show " " ++ byteHexStr b ++ "" = if False then "" else " " ++ specHex [b]
      rw [String.append_empty, if_neg (by exact fun h => h)]
      rfl
    | cons r t =>
      show " " ++ byteHexStr b ++ (" " ++ specHex (r :: t)) = _
      rw [if_neg (by simp)]
      show _ = " " ++ (byteHexStr b ++ " " ++ specHex (r :: t))
      rw [String.append_assoc, String.append_assoc]

lemma formatHexGo_true (data : List Nat) :
    formatHexGo (encodeToString data) true = specHex data := by
  cases data with
  | nil => rfl
  | cons b rest =>
    rw [encodeToString_cons]
    show "" ++ String.mk [hexDigit (b % 256 / 16), hexDigit (b % 256 % 16)] ++
        formatHexGo (encodeToString rest) false = _
    rw [String.empty_append, formatHexGo_false]
    cases rest with
    | nil => exact String.append_empty _
    | cons r t =>
      rw [if_neg (by simp)]
      show byteHexStr b ++ (" " ++ specHex (r :: t)) = _
      rw [← String.append_assoc]
      rfl

/-- C7: whenever a packet line is emitted, `LogPacket` renders exactly
`<ts> [PKT] [<dir>] <hex> (<n> bytes)` followed by ` from <src>` if and
only if the source is non-empty, terminated by one newline, where `<hex>`
is each byte as a lowercase two-digit hex pair, pairs separated by single
spaces with no trailing space. -/
theorem log_packet_line_spec (ts dir : String) (data : List Nat)
    (source : String) :
    logPacketLine ts dir data source = specPacketLine ts dir data source := by
  unfold logPacketLine specPacketLine
  rw [formatHexGo_true]
  by_cases hs : source = ""
  · rw [if_neg (by simp [hs]), if_pos hs]
    rw [String.append_empty]
    have hsplit : (" bytes)\n" : String) = " bytes)" ++ "\n" := by decide
    rw [hsplit]
    simp only [String.append_assoc]
  · rw [if_pos hs, if_neg hs]
    have hsplit : (" bytes) from " : String) = " bytes)" ++ " from " := by decide
    rw [hsplit]
    simp only [String.append_assoc]

/-- Program counter of `connectionLoop` (upstream source lines 105-162):
`top` = the loop head about to run the context/state checks (lines
111-120), `topSet` = checks passed, about to run `setState(Connecting)`
(line 122), `dial` = the dial in flight (line 125), `backoffWait` = the
backoff select (lines 130-136), `mark` = the handle stored (lines 142-144)
but `setState(Connected)` (line 145) not yet executed, `readPump` = inside
`readLoop`, `clear` = about to null the handle (lines 153-155),
`chkRead`/`chkSet` = the two separately locked halves of the final
`GetState() != StateStopped` check (lines 157-160), `exited` =
returned. -/
inductive LoopPc
  | top
  | topSet
  | dial
  | backoffWait
  | mark
  | readPump
  | clear
  | chkRead
  | chkSet
  | exited
  deriving DecidableEq, Repr, Fintype

/-- Program counter of `Connection.Stop` (upstream source lines 91-103):
`setState(Stopped)`, then `cancel()`, then close the handle, then wait. -/
inductive StopPc
  | s0
  | s1
  | s2
  | sdone
  deriving DecidableEq, Repr, Fintype

/-- Program counter of one `Connection.Write` call (lines 198-215): it only
reads the shared handle and writes on the socket, mutating no connector
field. -/
inductive WritePc
  | w0
  | wdone
  deriving DecidableEq, Repr, Fintype

/-- Shared state of the upstream connector under the interleaved execution
of `connectionLoop`, one `Stop` call and one `Write` call: the state enum,
whether the handle `conn` is non-null, whether the context is cancelled,
the loop-local boolean read at the final state check, and the three program
counters. -/
structure USys where
  st : UpState
  conn : Bool
  ctxDone : Bool
  sawNotStopped : Bool
  pc : LoopPc
  spc : StopPc
  wpc : WritePc
  deriving DecidableEq, Repr

/-- The state right after `NewConnection` and `Start`: Disconnected, no
handle, context live, loop at its head, `Stop` and `Write` not yet run. -/
def USys.init : USys :=
  { st := .disconnected, conn := false, ctxDone := false,
    sawNotStopped := true, pc := .top, spc := .s0, wpc := .w0 }

/-- One interleaved atomic step: each constructor is one lock-protected (or
local) action of `connectionLoop`, `Stop` or `Write` in the upstream
source.  Dial outcomes and read-pump termination are nondeterministic
environment choices. -/
inductive UStep : USys → USys → Prop
  | topExit (s : USys) (h : s.pc = .top)
      (hdone : s.ctxDone = true ∨ s.st = .stopped) :
      UStep s { s with pc := .exited }
  | topGo (s : USys) (h : s.pc = .top) (hrun : s.ctxDone = false)
      (hst : s.st ≠ .stopped) :
      UStep s { s with pc := .topSet }
  | topSetConnecting (s : USys) (h : s.pc = .topSet) :
      UStep s { s with st := .connecting, pc := .dial }
  | dialFail (s : USys) (h : s.pc = .dial) :
      UStep s { s with st := .disconnected, pc := .backoffWait }
  | dialOk (s : USys) (h : s.pc = .dial) :
      UStep s { s with conn := true, pc := .mark }
  | backoffTimer (s : USys) (h : s.pc = .backoffWait) :
      UStep s { s with pc := .top }
  | backoffCancelled (s : USys) (h : s.pc = .backoffWait)
      (hd : s.ctxDone = true) :
      UStep s { s with pc := .exited }
  | markConnected (s : USys) (h : s.pc = .mark) :
      UStep s { s with st := .connected, pc := .readPump }
  | readReturn (s : USys) (h : s.pc = .readPump) :
      UStep s { s with pc := .clear }
  | clearConn (s : USys) (h : s.pc = .clear) :
      UStep s { s with conn := false, pc := .chkRead }
  | checkRead (s : USys) (h : s.pc = .chkRead) :
      UStep s { s with sawNotStopped := decide (s.st ≠ .stopped), pc := .chkSet }
  | checkSetDisconnected (s : USys) (h : s.pc = .chkSet)
      (hv : s.sawNotStopped = true) :
      UStep s { s with st := .disconnected, pc := .top }
  | checkSkip (s : USys) (h : s.pc = .chkSet) (hv : s.sawNotStopped = false) :
      UStep s { s with pc := .top }
  | stopSetState (s : USys) (h : s.spc = .s0) :
      UStep s { s with st := .stopped, spc := .s1 }
  | stopCancel (s : USys) (h : s.spc = .s1) :
      UStep s { s with ctxDone := true, spc := .s2 }
  | stopCloseConn (s : USys) (h : s.spc = .s2) :
      UStep s { s with spc := .sdone }
  | writeStep (s : USys) (h : s.wpc = .w0) :
      UStep s { s with wpc := .wdone }

/-- States reachable from `USys.init` under the interleaving. -/
inductive UReach : USys → Prop
  | init : UReach USys.init
  | step {s s2 : USys} : UReach s → UStep s s2 → UReach s2

/-- Inductive invariant: the handle is non-null exactly in the window from
the store (line 143) to the null (line 154) — loop counters `mark`,
`readPump`, `clear` — and from the dial to the null the state is never
Disconnected: only the dial-failure path and the post-clear path set
Disconnected, both with a null handle. -/
def UInv (s : USys) : Prop :=
  (s.conn = true ↔ (s.pc = .mark ∨ s.pc = .readPump ∨ s.pc = .clear)) ∧
  ((s.pc = .dial ∨ s.pc = .mark ∨ s.pc = .readPump ∨ s.pc = .clear) →
    s.st ≠ .disconnected)

instance (s : USys) : Decidable (UInv s) := by
  unfold UInv
  infer_instance

lemma UInv_init : UInv USys.init := by decide

lemma UInv_step {s s2 : USys} (h : UStep s s2) (hs : UInv s) : UInv s2 := by
  rcases s with ⟨st, conn, cd, saw, pc, spc, wpc⟩
  cases h <;> simp_all [UInv]

lemma UReach_inv {s : USys} (h : UReach s) : UInv s := by
  induction h with
  | init => exact UInv_init
  | step hr hst ih => exact UInv_step hst ih

/-- The loop just after the checks at the top (about to set Connecting). -/
def uAfterChecks : USys := { USys.init with pc := .topSet }

/-- The loop in Connecting with the dial in flight. -/
def uDialing : USys := { uAfterChecks with st := .connecting, pc := .dial }

/-- The dial succeeded and the handle is stored (line 143), but
`setState(Connected)` (line 145) has not yet run: non-null handle with
state Connecting. -/
def uBad : USys := { uDialing with conn := true, pc := .mark }

lemma uBad_reachable : UReach uBad := by
  have h1 : UStep USys.init uAfterChecks :=
    UStep.topGo USys.init rfl rfl (by decide)
  have h2 : UStep uAfterChecks uDialing :=
    UStep.topSetConnecting uAfterChecks rfl
  have h3 : UStep uDialing uBad :=
    UStep.dialOk uDialing rfl
  exact UReach.step (UReach.step (UReach.step UReach.init h1) h2) h3

/-- C9 counterexample: the interleaved execution reaches the state `uBad`
in which the connection handle is non-null while the connector state is
Connecting, not Connected — `connectionLoop` stores the handle (line 143)
before calling `setState(StateConnected)` (line 145), so the claimed
invariant `non-null handle → state == Connected` fails. -/
theorem handle_state_counterexample :
    UReach uBad ∧ uBad.conn = true ∧ ¬ uBad.st = UpState.connected :=
  ⟨uBad_reachable, rfl, by decide⟩

/-- C9 (amended): in every reachable state of the interleaved execution of
`connectionLoop`, `Stop` and `Write`, a non-null connection handle implies
the connector state is not Disconnected — it is Connecting in the instant
between the handle store and the Connected transition, Connected during the
read pump, or Stopped during shutdown, but never Disconnected. -/
theorem handle_not_disconnected {s : USys} (h : UReach s) (hc : s.conn = true) :
    s.st ≠ UpState.disconnected := by
  have hi := UReach_inv h
  have hw := hi.1.mp hc
  exact hi.2 (by tauto)

/-- C9 witness: the amended invariant applied at the concrete reachable
state `uBad`. -/
theorem handle_not_disconnected_witness : ¬ uBad.st = UpState.disconnected :=
  handle_not_disconnected uBad_reachable rfl

/-- A post-shutdown state of the interleaved execution: `Stop` has executed
all three of its mutating actions (`spc = sdone`), the connection loop has
exited (`pc = exited`, so `wg.Wait` and hence `Stop()` itself return), and
the connector state is Disconnected, not Stopped. -/
def uStopRace : USys :=
  { st := .disconnected, conn := false, ctxDone := true, sawNotStopped := true,
    pc := .exited, spc := .sdone, wpc := .w0 }

/-- The schedule reaching `uStopRace`: the loop connects, the read pump
returns (a network read failure coinciding with shutdown), the loop nulls
the handle and executes the `GetState() != StateStopped` read (line 157)
seeing Connected; `Stop` then runs `setState(StateStopped)` (line 92); the
loop overwrites it with `setState(StateDisconnected)` (line 158) and goes
back to the top; `Stop` cancels the context and closes the handle; the loop
observes the cancelled context and exits. -/
lemma uStopRace_reachable : UReach uStopRace := by
  have h1 := UReach.step UReach.init (UStep.topGo _ rfl rfl (by decide))
  have h2 := UReach.step h1 (UStep.topSetConnecting _ rfl)
  have h3 := UReach.step h2 (UStep.dialOk _ rfl)
  have h4 := UReach.step h3 (UStep.markConnected _ rfl)
  have h5 := UReach.step h4 (UStep.readReturn _ rfl)
  have h6 := UReach.step h5 (UStep.clearConn _ rfl)
  have h7 := UReach.step h6 (UStep.checkRead _ rfl)
  have h8 := UReach.step h7 (UStep.stopSetState _ rfl)
  have h9 := UReach.step h8 (UStep.checkSetDisconnected _ rfl (by decide))
  have h10 := UReach.step h9 (UStep.stopCancel _ rfl)
  have h11 := UReach.step h10 (UStep.stopCloseConn _ rfl)
  exact UReach.step h11 (UStep.topExit _ rfl (Or.inl rfl))

/-- C5 (code bug): the shutdown postcondition `state() == Stopped` can be
violated by the code.  `Stop`'s `setState(StateStopped)` (line 92) and the
loop's final `GetState() != StateStopped` check followed by
`setState(StateDisconnected)` (lines 157-158) are separate lock
acquisitions, so when an upstream read failure coincides with `Stop()` the
loop can overwrite Stopped with Disconnected before exiting; `wg.Wait`
then returns and `Stop()` completes with `GetState() == Disconnected`,
contradicting the spec and the repository's own `TestConnection_Stop`,
which asserts Stopped after `Stop()`.  The theorem exhibits the reachable
post-`Stop` state. -/
theorem stop_race_reachable :
    UReach uStopRace ∧ uStopRace.spc = StopPc.sdone ∧
    uStopRace.pc = LoopPc.exited ∧ uStopRace.st = UpState.disconnected :=
  ⟨uStopRace_reachable, rfl, rfl, rfl⟩

end SerialTcpProxy
